import Mathlib

/-!
Shallow embedding of the spend-report application (dukewellington61/spend-report-app).

The repository contains several variants of the same pipeline:
* a per-file CSV variant with module-global accumulator state
  (`src/report.js` first program, `src/unnamed/part_001`, and — with
  function-local state — `src/unnamed/part_000`); its row step is embedded
  here as `processRowA` over `StateA`;
* a per-month (xlsx) variant (`src/report.js` second program) whose row step
  is embedded as `processRowB` over an insertion-ordered association list of
  month buckets, and whose cross-file merge in `main` is embedded as
  `mergeBucket` / `insertMonth` / `mergeMaps`.

Amounts are JavaScript numbers in the source; they are modelled as exact
rationals (ℚ).  Strings are modelled as Lean `String`s / `List Char`;
absent CSV cells are `Option.none`, and JavaScript truthiness on strings is
`falsy`.  The keyword lists live in `keywords.js`, which the spec treats as
injected configuration; each list's combined test
`keywords.some((re) => re.test(recipient))` is modelled as an abstract
predicate `String → Bool` in `Config`.
-/

set_option autoImplicit false

namespace SpendReport

/-- Characters removed by the JavaScript regex `/\s/g` (ASCII whitespace
plus NBSP suffices for the inputs in question). -/
def isJsSpace (c : Char) : Bool :=
  c == ' ' || c == '\t' || c == '\n' || c == '\r' || c == '\x0b' || c == '\x0c' || c == ' '

/-- JavaScript `String.prototype.replace` with a plain-string pattern
replaces only the first occurrence; this is the one-character instance used
for `.replace("€", "")`. -/
def removeFirst (target : Char) : List Char → List Char
  | [] => []
  | c :: cs => if c == target then cs else c :: removeFirst target cs

/-- Models `.replace(",", ".")`: only the first comma becomes a dot. -/
def replaceFirstComma : List Char → List Char
  | [] => []
  | c :: cs => if c == ',' then '.' :: cs else c :: replaceFirstComma cs

/-- The cleaning pipeline of `parseEuro`: strip whitespace, strip the first
euro sign, delete every dot (thousands separators), turn the first comma
into a decimal dot, then delete every character outside `[0-9.-]`. -/
def cleanEuro (cs : List Char) : List Char :=
  let a := cs.filter (fun c => !(isJsSpace c))
  let b := removeFirst '€' a
  let c := b.filter (fun x => !(x == '.'))
  let d := replaceFirstComma c
  d.filter (fun x => x.isDigit || x == '.' || x == '-')

/-- Longest digit run at the head of the list, and the remainder. -/
def takeDigits : List Char → List Char × List Char
  | [] => ([], [])
  | c :: cs =>
    if c.isDigit then
      let p := takeDigits cs
      (c :: p.1, p.2)
    else ([], c :: cs)

/-- Numeric value of a digit list, most significant first. -/
def digitsToNat : List Char → Nat
  | [] => 0
  | c :: cs => (c.toNat - 48) * 10 ^ cs.length + digitsToNat cs

/-- Unsigned part of JavaScript `parseFloat`: digits, optionally followed by
a dot and more digits (either side may be empty but not both); everything
after the parsed prefix is ignored.  Exponents never occur because the
cleaned alphabet is `[0-9.-]`. -/
def parseUnsigned (cs : List Char) : Option ℚ :=
  let p := takeDigits cs
  match p.2 with
  | '.' :: rest =>
    let q := takeDigits rest
    if p.1.isEmpty && q.1.isEmpty then none
    else some ((digitsToNat p.1 : ℚ) + (digitsToNat q.1 : ℚ) / (10 ^ q.1.length : ℚ))
  | _ => if p.1.isEmpty then none else some (digitsToNat p.1)

/-- JavaScript `parseFloat` restricted to the post-cleaning alphabet:
an optional sign followed by an unsigned decimal literal prefix; `none`
models the `NaN` outcome. -/
def parseJsFloat : List Char → Option ℚ
  | '-' :: cs => (parseUnsigned cs).map (fun q => -q)
  | '+' :: cs => parseUnsigned cs
  | cs => parseUnsigned cs

/-- JavaScript truthiness of a possibly-absent string cell: `undefined`,
`null` and the empty string are falsy. -/
def falsy : Option String → Bool
  | none => true
  | some s => s == ""

/-- `parseEuro` from the source: falsy input yields 0, otherwise the cleaned
string is parsed with `parseFloat`, and a `NaN` result collapses to 0. -/
def parseEuro (value : Option String) : ℚ :=
  match value with
  | none => 0
  | some s =>
    if s == "" then 0
    else
      match parseJsFloat (cleanEuro s.data) with
      | none => 0
      | some q => q

/-! ### Data model of the classification pipeline -/

/-- A match-list entry of the per-month (xlsx) variant:
`{ bookingDate, recipient, raw, parsed }`. -/
structure EntryB where
  bookingDate : String
  recipient : String
  raw : String
  parsed : ℚ
deriving DecidableEq

/-- An exclusion-list entry of the per-month (xlsx) variant:
`{ bookingDate, recipient, usage, raw, parsed }`. -/
structure ExclB where
  bookingDate : String
  recipient : String
  usage : String
  raw : String
  parsed : ℚ
deriving DecidableEq

/-- A match-list entry of the CSV variants: `{ recipient, raw, parsed }`. -/
structure EntryA where
  recipient : String
  raw : String
  parsed : ℚ
deriving DecidableEq

/-- An exclusion-list entry of the CSV variants:
`{ recipient, usage, raw, parsed }`. -/
structure ExclA where
  recipient : String
  usage : String
  raw : String
  parsed : ℚ
deriving DecidableEq

/-- One category's accumulator: ordered match list plus running total
(the source field `matches` is a reserved word in Lean and is rendered
`matchList`). -/
structure Agg (ε : Type) where
  matchList : List ε
  total : ℚ
deriving DecidableEq

/-- A per-month bucket of the xlsx variant: one accumulator per category
plus the month's exclusion list.  The source also stores the (fixed) keyword
regex lists inside the bucket; those are injected configuration and are
modelled by the ambient `Config`. -/
structure Bucket where
  groceries : Agg EntryB
  fixedCosts : Agg EntryB
  misc : Agg EntryB
  excluded : List ExclB
deriving DecidableEq

/-- The module-global accumulator state of the CSV variants: the
`categories` object (groceries, fixedCosts, misc — misc with an empty
keyword list) plus `excludedEntries`. -/
structure StateA where
  groceries : Agg EntryA
  fixedCosts : Agg EntryA
  misc : Agg EntryA
  excludedEntries : List ExclA
deriving DecidableEq

/-- Injected keyword configuration.  Each field models the combined test
`keywordRegexList(listName).some((re) => re.test(recipient))` for the
corresponding list from `keywords.js` (for the CSV variants the grocery and
fixed-cost predicates additionally absorb the `cat.keywords.length`
truthiness guard, which only rules out the empty `misc` list). -/
structure Config where
  groceryMatch : String → Bool
  fixedMatch : String → Bool
  excludeMatch : String → Bool

/-- A decoded CSV row of the xlsx variant, after column aliasing:
amount cell, booking-date cell, recipient cell, usage cell; `none` models
an absent column. -/
structure RowB where
  amountStr : Option String
  bookingDate : Option String
  recipient : Option String
  usage : Option String
deriving DecidableEq

/-- A decoded CSV row of the CSV variants (no booking date is read). -/
structure RowA where
  recipient : Option String
  amountStr : Option String
  usage : Option String
deriving DecidableEq

/-- The string content of a cell that passed the truthiness test. -/
def getStr (v : Option String) : String := v.getD ""

/-- Models `row["Verwendungszweck"] || "-"`. -/
def orDash (v : Option String) : String :=
  if falsy v then "-" else getStr v

/-- Appending one entry to a category accumulator:
`cat.matches.push(entry); cat.total += parsedAmount`. -/
def pushAgg {ε : Type} (a : Agg ε) (e : ε) (p : ℚ) : Agg ε :=
  { matchList := a.matchList ++ [e], total := a.total + p }

/-! ### The CSV variants' row step (report.js first program, part_000, part_001) -/

/-- Fresh accumulator state (`matches: [], total: 0` per category, empty
exclusion list). -/
def initA : StateA :=
  { groceries := ⟨[], 0⟩, fixedCosts := ⟨[], 0⟩, misc := ⟨[], 0⟩, excludedEntries := [] }

/-- The `.on("data", (row) => ...)` handler of the CSV variants: skip rows
missing recipient or amount; record exclusion-matching recipients in
`excludedEntries` (before the sign test); drop non-negative amounts; then
first-match-wins over groceries and fixedCosts (misc has an empty keyword
list and is guarded out of the loop), with misc as catch-all. -/
def processRowA (cfg : Config) (st : StateA) (row : RowA) : StateA :=
  if falsy row.recipient || falsy row.amountStr then st
  else if cfg.excludeMatch (getStr row.recipient) then
    { st with excludedEntries := st.excludedEntries ++
        [⟨getStr row.recipient, orDash row.usage, getStr row.amountStr, parseEuro row.amountStr⟩] }
  else if 0 ≤ parseEuro row.amountStr then st
  else if cfg.groceryMatch (getStr row.recipient) then
    { st with groceries := (pushAgg st.groceries
        ⟨getStr row.recipient, getStr row.amountStr, parseEuro row.amountStr⟩
        (parseEuro row.amountStr)) }
  else if cfg.fixedMatch (getStr row.recipient) then
    { st with fixedCosts := (pushAgg st.fixedCosts
        ⟨getStr row.recipient, getStr row.amountStr, parseEuro row.amountStr⟩
        (parseEuro row.amountStr)) }
  else
    { st with misc := (pushAgg st.misc
        ⟨getStr row.recipient, getStr row.amountStr, parseEuro row.amountStr⟩
        (parseEuro row.amountStr)) }

/-- One whole classification pass of a CSV variant over the decoded rows,
starting from the accumulator state `st` it finds (the module-global
`categories` / `excludedEntries` in report.js and part_001; a fresh local
state in part_000). -/
def loadA (cfg : Config) (st : StateA) (rows : List RowA) : StateA :=
  rows.foldl (processRowA cfg) st

/-! ### The xlsx variant (report.js second program): per-month buckets -/

/-- JavaScript `String.prototype.split` with a one-character separator,
on char lists. -/
def splitOnChar (sep : Char) : List Char → List (List Char)
  | [] => [[]]
  | c :: cs =>
    let r := splitOnChar sep cs
    if c == sep then [] :: r
    else
      match r with
      | [] => [[c]]
      | h :: t => (c :: h) :: t

/-- `extractMonthYear` from the xlsx variant: destructure
`dateStr.split(".")` as `[day, month, year]` and render `year-month`
(a missing part renders as the string `undefined`, as in JavaScript
template interpolation). -/
def extractMonthYear (dateStr : String) : String :=
  let parts := splitOnChar '.' dateStr.data
  let month := parts.getD 1 "undefined".data
  let year := parts.getD 2 "undefined".data
  String.mk (year ++ '-' :: month)

/-- Lookup in the insertion-ordered association list that models the
`categoriesPerMonth` / `allCategories` objects. -/
def alLookup {α : Type} : List (String × α) → String → Option α
  | [], _ => none
  | (k, v) :: rest, key => if k == key then some v else alLookup rest key

/-- In-place update of the value stored under an existing key. -/
def alUpdate {α : Type} (f : α → α) : List (String × α) → String → List (String × α)
  | [], _ => []
  | (k, v) :: rest, key =>
    if k == key then (k, f v) :: rest else (k, v) :: alUpdate f rest key

/-- The bucket installed by
`if (!categoriesPerMonth[monthKey]) categoriesPerMonth[monthKey] = {...}`. -/
def emptyBucket : Bucket :=
  { groceries := ⟨[], 0⟩, fixedCosts := ⟨[], 0⟩, misc := ⟨[], 0⟩, excluded := [] }

/-- The per-bucket part of the xlsx row handler, applied after the month
bucket has been selected: exclusion test first, then first-match-wins over
groceries and fixedCosts (the loop of the source iterates exactly these two,
in this order), then the misc catch-all. -/
def categorizeRow (cfg : Config) (bookingDate recipient usage amountStr : String)
    (parsedAmount : ℚ) (b : Bucket) : Bucket :=
  if cfg.excludeMatch recipient then
    { b with excluded :=
        b.excluded ++ [⟨bookingDate, recipient, usage, amountStr, parsedAmount⟩] }
  else if cfg.groceryMatch recipient then
    { b with groceries :=
        pushAgg b.groceries ⟨bookingDate, recipient, amountStr, parsedAmount⟩ parsedAmount }
  else if cfg.fixedMatch recipient then
    { b with fixedCosts :=
        pushAgg b.fixedCosts ⟨bookingDate, recipient, amountStr, parsedAmount⟩ parsedAmount }
  else
    { b with misc :=
        pushAgg b.misc ⟨bookingDate, recipient, amountStr, parsedAmount⟩ parsedAmount }

/-- State of the xlsx pass: `categoriesPerMonth`, an insertion-ordered map
from month key to bucket. -/
abbrev BState : Type := List (String × Bucket)

/-- The `.on("data", (row) => ...)` handler of the xlsx variant: skip rows
missing amount, booking date or recipient; drop non-negative amounts (before
the exclusion test); create the month's bucket on first contact; then run
`categorizeRow` on that bucket. -/
def processRowB (cfg : Config) (st : BState) (row : RowB) : BState :=
  if falsy row.amountStr || falsy row.bookingDate || falsy row.recipient then st
  else if 0 ≤ parseEuro row.amountStr then st
  else
    alUpdate
      (categorizeRow cfg (getStr row.bookingDate) (getStr row.recipient)
        (orDash row.usage) (getStr row.amountStr) (parseEuro row.amountStr))
      (if (alLookup st (extractMonthYear (getStr row.bookingDate))).isSome then st
       else st ++ [(extractMonthYear (getStr row.bookingDate), emptyBucket)])
      (extractMonthYear (getStr row.bookingDate))

/-- One whole xlsx classification pass over the decoded rows of a file;
`categoriesPerMonth` starts empty on every call. -/
def loadB (cfg : Config) (rows : List RowB) : BState :=
  rows.foldl (processRowB cfg) []

/-! ### The cross-file merge of the xlsx variant's main -/

/-- Merging the already-accumulated bucket `a` with a new file's bucket `b`
for the same month key:
`allCategories[month][key].matches.push(...data[key].matches)` and
`allCategories[month][key].total += data[key].total` for each category,
plus `allCategories[month].excluded.push(...data.excluded)`. -/
def mergeBucket (a b : Bucket) : Bucket :=
  { groceries := ⟨a.groceries.matchList ++ b.groceries.matchList,
      a.groceries.total + b.groceries.total⟩,
    fixedCosts := ⟨a.fixedCosts.matchList ++ b.fixedCosts.matchList,
      a.fixedCosts.total + b.fixedCosts.total⟩,
    misc := ⟨a.misc.matchList ++ b.misc.matchList, a.misc.total + b.misc.total⟩,
    excluded := a.excluded ++ b.excluded }

/-- One month of a freshly loaded file entering `allCategories`:
install it when the month is new, otherwise merge it into the existing
bucket. -/
def insertMonth (acc : BState) (month : String) (data : Bucket) : BState :=
  if (alLookup acc month).isSome then alUpdate (fun b => mergeBucket b data) acc month
  else acc ++ [(month, data)]

/-- Folding one file's per-month result map into `allCategories`, month by
month in the file map's insertion order. -/
def mergeMaps (acc m : BState) : BState :=
  m.foldl (fun a p => insertMonth a p.1 p.2) acc

/-! ### Header location -/

/-- Bool-valued prefix test on char lists. -/
def leadOf : List Char → List Char → Bool
  | [], _ => true
  | _ :: _, [] => false
  | a :: as, b :: bs => a == b && leadOf as bs

/-- JavaScript `String.prototype.includes`: substring containment. -/
def containsSub (needle : List Char) : List Char → Bool
  | [] => needle.isEmpty
  | b :: bs => leadOf needle (b :: bs) || containsSub needle bs

/-- Index of the first list element satisfying `p`
(JavaScript `findIndex`, with `none` for the `-1` outcome). -/
def findIdxOpt {α : Type} (p : α → Bool) : List α → Option Nat
  | [] => none
  | a :: as => if p a then some 0 else (findIdxOpt p as).map (fun i => i + 1)

/-- Format detection of the xlsx variant:
`lines.some((line) => line.includes("Zahlungsempfänger*in"))`. -/
def isDKB (lines : List String) : Bool :=
  lines.any (fun l => containsSub "Zahlungsempfänger*in".data l.data)

/-- The header predicate of the source: for the DKB format a line must
contain both "Zahlungsempfänger*in" and "Betrag (€)"; for the other format
both "Umsatz" and "Buchungstag". -/
def headerLine (dkb : Bool) (l : String) : Bool :=
  if dkb then
    containsSub "Zahlungsempfänger*in".data l.data && containsSub "Betrag (€)".data l.data
  else
    containsSub "Umsatz".data l.data && containsSub "Buchungstag".data l.data

/-- The Header Locator:
`lines.findIndex((line) => ...)`, with `none` modelling the
`headerIndex === -1` / thrown-error outcome. -/
def locateHeader (lines : List String) : Option Nat :=
  findIdxOpt (headerLine (isDKB lines)) lines

/-- Modelled from the spec's words for comparison (claim C5): a DKB header
line would have to contain all three of "Zahlungsempfänger*in",
"Betrag (€)" and "Buchungsdatum" jointly. -/
def headerLineClaimDKB (l : String) : Bool :=
  containsSub "Zahlungsempfänger*in".data l.data && containsSub "Betrag (€)".data l.data
    && containsSub "Buchungsdatum".data l.data

/-- The xlsx variant's per-file load, at the granularity the claims need:
header location happens first and a missing header aborts the file with the
thrown error message, before any row is decoded, so no partial state is
committed; otherwise the pass over the decoded rows (the csv-parser decode
of the trimmed lines is the external collaborator) runs from a fresh map. -/
def loadAndCategorizeB (cfg : Config) (lines : List String) (rows : List RowB) :
    Except String BState :=
  match locateHeader lines with
  | none => Except.error "Kein gültiger Header gefunden"
  | some _ => Except.ok (loadB cfg rows)

/-! ### Invariants and statement helpers -/

/-- Sum of the parsed amounts of an xlsx match list. -/
def sumParsedB (l : List EntryB) : ℚ := (l.map EntryB.parsed).sum

/-- One category accumulator is coherent: the running total equals the sum
of the parsed amounts of its match list. -/
def aggInv (a : Agg EntryB) : Prop := a.total = sumParsedB a.matchList

/-- All three category accumulators of a month bucket are coherent. -/
def bucketInv (b : Bucket) : Prop :=
  aggInv b.groceries ∧ aggInv b.fixedCosts ∧ aggInv b.misc

/-- Every month bucket of a per-month state is coherent. -/
def stateInv (st : BState) : Prop := ∀ p ∈ st, bucketInv p.2

/-- Pointwise composition of two category accumulators (list concatenation
and total addition); used to state how a CSV-variant pass relates to the
accumulator state it starts from. -/
def combineAgg {ε : Type} (a b : Agg ε) : Agg ε :=
  ⟨a.matchList ++ b.matchList, a.total + b.total⟩

/-- Pointwise composition of two CSV-variant accumulator states. -/
def combineA (s t : StateA) : StateA :=
  ⟨combineAgg s.groceries t.groceries, combineAgg s.fixedCosts t.fixedCosts,
    combineAgg s.misc t.misc, s.excludedEntries ++ t.excludedEntries⟩

/-- A concrete matcher: plain (case-sensitive) substring containment, one
legitimate instantiation of a keyword regex fragment. -/
def matchSub (kw : String) (r : String) : Bool := containsSub kw.data r.data

/-- A concrete keyword configuration used to instantiate the universally
quantified theorems on explicit inputs. -/
def cfgSample : Config :=
  ⟨matchSub "REWE", matchSub "Miete", matchSub "PayPal"⟩

/-- A concrete row list for instantiating the CSV-variant theorems. -/
def rowsSample : List RowA := [⟨some "REWE Markt", some "-3", none⟩]

/-- A groceries entry worth −10 €, for the merge scenario. -/
def entryNeg10 : EntryB := ⟨"05.05.2025", "REWE Markt", "-10,00", -10⟩

/-- A groceries entry worth −5 €, for the merge scenario. -/
def entryNeg5 : EntryB := ⟨"11.05.2025", "REWE Markt", "-5,00", -5⟩

/-- File A's bucket for period 2025-05: groceries total −10. -/
def bucketA10 : Bucket := { emptyBucket with groceries := ⟨[entryNeg10], -10⟩ }

/-- File B's bucket for period 2025-05: groceries total −5. -/
def bucketB5 : Bucket := { emptyBucket with groceries := ⟨[entryNeg5], -5⟩ }

/-- A DKB-format file with five preamble lines followed by the header. -/
def dkbExampleLines : List String :=
  ["Girokonto", "", "01.05.2025 - 29.05.2025", "Kontostand vom 29.05.2025", "",
    "Buchungsdatum;Wertstellung;Status;Zahlungsempfänger*in;Verwendungszweck;Umsatztyp;IBAN;Betrag (€)"]

/-! ### Helper lemmas -/

theorem sumParsedB_append (l m : List EntryB) :
    sumParsedB (l ++ m) = sumParsedB l + sumParsedB m := by
  simp [sumParsedB]

theorem aggInv_pushAgg (a : Agg EntryB) (e : EntryB) (h : aggInv a) :
    aggInv (pushAgg a e e.parsed) := by
  simp [aggInv, pushAgg, sumParsedB] at h ⊢
  simp [h]

theorem bucketInv_emptyBucket : bucketInv emptyBucket := by
  refine ⟨?_, ?_, ?_⟩ <;> simp [aggInv, emptyBucket, sumParsedB]

theorem bucketInv_categorizeRow (cfg : Config) (d r u a : String) (p : ℚ)
    (b : Bucket) (h : bucketInv b) : bucketInv (categorizeRow cfg d r u a p b) := by
  obtain ⟨h1, h2, h3⟩ := h
  unfold categorizeRow
  split_ifs
  · exact ⟨h1, h2, h3⟩
  · exact ⟨aggInv_pushAgg _ _ h1, h2, h3⟩
  · exact ⟨h1, aggInv_pushAgg _ _ h2, h3⟩
  · exact ⟨h1, h2, aggInv_pushAgg _ _ h3⟩

theorem bucketInv_mergeBucket (a b : Bucket) (ha : bucketInv a) (hb : bucketInv b) :
    bucketInv (mergeBucket a b) := by
  obtain ⟨a1, a2, a3⟩ := ha
  obtain ⟨b1, b2, b3⟩ := hb
  unfold aggInv at a1 a2 a3 b1 b2 b3
  refine ⟨?_, ?_, ?_⟩ <;> simp [mergeBucket, aggInv, sumParsedB_append, a1, a2, a3, b1, b2, b3]

theorem stateInv_nil : stateInv [] := by
  intro p hp
  cases hp

theorem stateInv_append_single (st : BState) (k : String) (b : Bucket)
    (hst : stateInv st) (hb : bucketInv b) : stateInv (st ++ [(k, b)]) := by
  intro p hp
  rcases List.mem_append.mp hp with h | h
  · exact hst p h
  · rcases List.mem_singleton.mp h with rfl
    exact hb

theorem stateInv_alUpdate (f : Bucket → Bucket) (st : BState) (k : String)
    (hf : ∀ b, bucketInv b → bucketInv (f b)) (h : stateInv st) :
    stateInv (alUpdate f st k) := by
  induction st with
  | nil => exact h
  | cons hd tl ih =>
    obtain ⟨k0, v⟩ := hd
    have hv : bucketInv v := h _ (List.mem_cons_self _ _)
    have htl : stateInv tl := fun p hp => h p (List.mem_cons_of_mem _ hp)
    unfold alUpdate
    split_ifs with hk
    · intro p hp
      rcases List.mem_cons.mp hp with rfl | hp2
      · exact hf v hv
      · exact htl p hp2
    · intro p hp
      rcases List.mem_cons.mp hp with rfl | hp2
      · exact hv
      · exact ih htl p hp2

theorem stateInv_processRowB (cfg : Config) (st : BState) (row : RowB)
    (h : stateInv st) : stateInv (processRowB cfg st row) := by
  unfold processRowB
  split_ifs with h1 h2 h3
  · exact h
  · exact h
  · exact stateInv_alUpdate _ _ _ (fun b hb => bucketInv_categorizeRow _ _ _ _ _ _ _ hb) h
  · exact stateInv_alUpdate _ _ _ (fun b hb => bucketInv_categorizeRow _ _ _ _ _ _ _ hb)
      (stateInv_append_single _ _ _ h bucketInv_emptyBucket)

theorem stateInv_loadB_fold (cfg : Config) (rows : List RowB) :
    ∀ st : BState, stateInv st → stateInv (rows.foldl (processRowB cfg) st) := by
  induction rows with
  | nil => intro st h; exact h
  | cons r rs ih => intro st h; exact ih _ (stateInv_processRowB cfg st r h)

theorem stateInv_insertMonth (acc : BState) (month : String) (data : Bucket)
    (hacc : stateInv acc) (hdata : bucketInv data) :
    stateInv (insertMonth acc month data) := by
  unfold insertMonth
  split_ifs with h
  · exact stateInv_alUpdate _ _ _ (fun b hb => bucketInv_mergeBucket _ _ hb hdata) hacc
  · exact stateInv_append_single _ _ _ hacc hdata

theorem stateInv_mergeMaps (m : BState) : ∀ acc : BState, stateInv acc → stateInv m →
    stateInv (mergeMaps acc m) := by
  induction m with
  | nil => intro acc h _; exact h
  | cons p ps ih =>
    intro acc hacc hm
    have hp : bucketInv p.2 := hm p (List.mem_cons_self _ _)
    have hps : stateInv ps := fun q hq => hm q (List.mem_cons_of_mem _ hq)
    exact ih _ (stateInv_insertMonth acc p.1 p.2 hacc hp) hps

theorem alLookup_alUpdate_self {α : Type} (f : α → α) (st : List (String × α))
    (k : String) (v : α) (h : alLookup st k = some v) :
    alLookup (alUpdate f st k) k = some (f v) := by
  induction st with
  | nil => simp [alLookup] at h
  | cons hd tl ih =>
    obtain ⟨k0, v0⟩ := hd
    by_cases hk : (k0 == k) = true
    · simp [alLookup, alUpdate, hk] at h ⊢
      exact congrArg f h
    · simp [alLookup, alUpdate, hk] at h ⊢
      exact ih h

theorem findIdxOpt_none_iff {α : Type} (p : α → Bool) (l : List α) :
    findIdxOpt p l = none ↔ ∀ x ∈ l, p x = false := by
  induction l with
  | nil => simp [findIdxOpt]
  | cons a as ih =>
    by_cases ha : p a = true
    · simp [findIdxOpt, ha]
    · have ha2 : p a = false := Bool.eq_false_iff.mpr ha
      simp [findIdxOpt, ha2, ih]

theorem findIdxOpt_some_spec {α : Type} (p : α → Bool) (dflt : α) :
    ∀ (l : List α) (i : Nat), findIdxOpt p l = some i →
      i < l.length ∧ p (l.getD i dflt) = true ∧ ∀ j, j < i → p (l.getD j dflt) = false := by
  intro l
  induction l with
  | nil => intro i h; simp [findIdxOpt] at h
  | cons a as ih =>
    intro i h
    by_cases ha : p a = true
    · simp [findIdxOpt, ha] at h
      subst h
      exact ⟨Nat.succ_pos _, by simpa using ha, fun j hj => absurd hj (Nat.not_lt_zero j)⟩
    · have ha2 : p a = false := Bool.eq_false_iff.mpr ha
      simp [findIdxOpt, ha2] at h
      obtain ⟨i0, h0, rfl⟩ := h
      obtain ⟨hlen, hget, hprev⟩ := ih i0 h0
      refine ⟨Nat.succ_lt_succ hlen, by simpa using hget, ?_⟩
      intro j hj
      cases j with
      | zero => simpa using ha2
      | succ j0 => simpa using hprev j0 (Nat.lt_of_succ_lt_succ hj)

theorem processRowA_combineA (cfg : Config) (s t : StateA) (row : RowA) :
    processRowA cfg (combineA s t) row = combineA s (processRowA cfg t row) := by
  unfold processRowA
  split_ifs <;> simp [combineA, combineAgg, pushAgg, List.append_assoc, add_assoc]

theorem loadA_combineA (cfg : Config) (rows : List RowA) :
    ∀ s t : StateA, loadA cfg (combineA s t) rows = combineA s (loadA cfg t rows) := by
  induction rows with
  | nil => intro s t; rfl
  | cons r rs ih =>
    intro s t
    calc loadA cfg (combineA s t) (r :: rs)
        = loadA cfg (processRowA cfg (combineA s t) r) rs := rfl
      _ = loadA cfg (combineA s (processRowA cfg t r)) rs := by
            rw [processRowA_combineA]
      _ = combineA s (loadA cfg (processRowA cfg t r) rs) := ih s _
      _ = combineA s (loadA cfg t (r :: rs)) := rfl

theorem combineA_initA_right (s : StateA) : combineA s initA = s := by
  simp [combineA, combineAgg, initA]

/-! ### Claim theorems -/

/-- C1: for every category in every period bucket, after every row
admission and after every merge of per-file results, the category's running
total equals the sum of the parsed amounts of the entries in that
category's match list (exactly; amounts are modelled as rationals, so the
1e-9 floating-point tolerance is subsumed by exact equality). -/
theorem c1_total_invariant (cfg : Config) (st : BState) (row : RowB)
    (a b : Bucket) (rows : List RowB) (acc m : BState)
    (hst : stateInv st) (ha : bucketInv a) (hb : bucketInv b)
    (hacc : stateInv acc) (hm : stateInv m) :
    stateInv (processRowB cfg st row) ∧ bucketInv (mergeBucket a b) ∧
      stateInv (loadB cfg rows) ∧ stateInv (mergeMaps acc m) :=
  ⟨stateInv_processRowB cfg st row hst, bucketInv_mergeBucket a b ha hb,
    stateInv_loadB_fold cfg rows [] stateInv_nil, stateInv_mergeMaps m acc hacc hm⟩

/-- Witness for C1 at concrete inputs. -/
theorem c1_total_invariant_witness :
    stateInv (processRowB cfgSample []
        ⟨some "-3", some "05.05.2025", some "REWE Markt", none⟩) ∧
      bucketInv (mergeBucket bucketA10 bucketB5) ∧
      stateInv (loadB cfgSample []) ∧ stateInv (mergeMaps [] []) :=
  c1_total_invariant cfgSample [] ⟨some "-3", some "05.05.2025", some "REWE Markt", none⟩
    bucketA10 bucketB5 [] [] []
    stateInv_nil
    (by refine ⟨?_, ?_, ?_⟩ <;>
      simp [bucketA10, emptyBucket, aggInv, sumParsedB, entryNeg10])
    (by refine ⟨?_, ?_, ?_⟩ <;>
      simp [bucketB5, emptyBucket, aggInv, sumParsedB, entryNeg5])
    stateInv_nil stateInv_nil

/-- C2 counterexample: in the CSV variants the exclusion test runs before
the `parsedAmount >= 0` drop, so a non-negative row whose recipient matches
an exclusion matcher is recorded in the exclusion list — the claim's "never
appears in the exclusion list" is false for them. -/
theorem c2_nonexpense_counterexample :
    0 ≤ parseEuro (some "3") ∧
      (processRowA cfgSample initA ⟨some "PayPal", some "3", none⟩).excludedEntries =
        [⟨"PayPal", "-", "3", 3⟩] := by
  decide

/-- C2 amended: a row with non-negative parsed amount never enters any
category's match list or total in any variant, and in the per-row-period
(xlsx) variant it is dropped entirely; in the CSV variants it is still
recorded in the exclusion list when its recipient matches an exclusion
matcher (and only then — otherwise the state is unchanged there too). -/
theorem c2_nonexpense_amended (cfg : Config) (stB : BState) (rowB : RowB)
    (stA : StateA) (rowA : RowA)
    (hB : 0 ≤ parseEuro rowB.amountStr) (hA : 0 ≤ parseEuro rowA.amountStr) :
    processRowB cfg stB rowB = stB ∧
      (processRowA cfg stA rowA).groceries = stA.groceries ∧
      (processRowA cfg stA rowA).fixedCosts = stA.fixedCosts ∧
      (processRowA cfg stA rowA).misc = stA.misc ∧
      (cfg.excludeMatch (getStr rowA.recipient) = false →
        processRowA cfg stA rowA = stA) := by
  constructor
  · unfold processRowB
    split_ifs <;> rfl
  · unfold processRowA
    split_ifs with h1 h2 <;>
      first
        | exact ⟨rfl, rfl, rfl, fun _ => rfl⟩
        | exact ⟨rfl, rfl, rfl, fun hf => absurd h2 (by simp [hf])⟩

/-- Witness for C2's amended statement at concrete inputs. -/
theorem c2_nonexpense_amended_witness :
    processRowB cfgSample [] ⟨some "3", some "05.05.2025", some "REWE Markt", none⟩ = [] ∧
      (processRowA cfgSample initA ⟨some "PayPal", some "3", none⟩).groceries = initA.groceries ∧
      (processRowA cfgSample initA ⟨some "PayPal", some "3", none⟩).fixedCosts = initA.fixedCosts ∧
      (processRowA cfgSample initA ⟨some "PayPal", some "3", none⟩).misc = initA.misc ∧
      (cfgSample.excludeMatch (getStr (some "PayPal" : Option String)) = false →
        processRowA cfgSample initA ⟨some "PayPal", some "3", none⟩ = initA) :=
  c2_nonexpense_amended cfgSample [] ⟨some "3", some "05.05.2025", some "REWE Markt", none⟩
    initA ⟨some "PayPal", some "3", none⟩ (by decide) (by decide)

/-- C3: an admissible expense row whose recipient matches an exclusion
matcher is recorded in the exclusion list and nothing else changes — in
particular no category match list or total — even when a category matcher
would also match (the configuration is universally quantified).  Stated for
the xlsx per-bucket step `categorizeRow` and for the CSV row step
`processRowA`. -/
theorem c3_exclusion_precedence (cfg : Config) (d r u a : String) (p : ℚ) (b : Bucket)
    (st : StateA) (row : RowA)
    (hex : cfg.excludeMatch r = true)
    (hr : falsy row.recipient = false) (hra : falsy row.amountStr = false)
    (hex2 : cfg.excludeMatch (getStr row.recipient) = true)
    (_hneg : parseEuro row.amountStr < 0) :
    categorizeRow cfg d r u a p b =
        { b with excluded := b.excluded ++ [⟨d, r, u, a, p⟩] } ∧
      processRowA cfg st row =
        { st with excludedEntries := st.excludedEntries ++
            [⟨getStr row.recipient, orDash row.usage, getStr row.amountStr,
              parseEuro row.amountStr⟩] } := by
  constructor
  · unfold categorizeRow
    simp [hex]
  · unfold processRowA
    simp [hr, hra, hex2]

/-- Witness for C3: recipient "REWE Markt" matches both the exclusion and
the grocery matcher of the all-REWE configuration, and is excluded. -/
theorem c3_exclusion_precedence_witness :
    categorizeRow ⟨matchSub "REWE", matchSub "REWE", matchSub "REWE"⟩
        "05.05.2025" "REWE Markt" "-" "-3" (-3) emptyBucket =
      { emptyBucket with excluded :=
          emptyBucket.excluded ++ [⟨"05.05.2025", "REWE Markt", "-", "-3", -3⟩] } ∧
      processRowA ⟨matchSub "REWE", matchSub "REWE", matchSub "REWE"⟩ initA
          ⟨some "REWE Markt", some "-3", none⟩ =
        { initA with excludedEntries := initA.excludedEntries ++
            [⟨getStr (some "REWE Markt" : Option String), orDash none,
              getStr (some "-3" : Option String), parseEuro (some "-3")⟩] } :=
  c3_exclusion_precedence ⟨matchSub "REWE", matchSub "REWE", matchSub "REWE"⟩
    "05.05.2025" "REWE Markt" "-" "-3" (-3) emptyBucket initA
    ⟨some "REWE Markt", some "-3", none⟩
    (by decide) (by decide) (by decide) (by decide) (by decide)

/-- C4 counterexample: in the variants with module-global accumulator
state, the second invocation of the pass within the same process starts
from the state the first one left behind and appends to it, so its
groceries match list is not the same as after one pass. -/
theorem c4_idempotence_counterexample :
    (loadA cfgSample (loadA cfgSample initA rowsSample) rowsSample).groceries.matchList ≠
      (loadA cfgSample initA rowsSample).groceries.matchList := by
  decide

/-- C4 amended: a pass appends its per-run result to whatever accumulator
state it starts from (`loadA cfg st rows = combineA st (loadA cfg initA rows)`).
Hence a second invocation from the module-global state left by the first
run yields every match list concatenated with itself and every total
doubled, while a pass that starts from the fresh initial state — as in the
variants that create the accumulator inside the function — reproduces the
first run's match lists and totals exactly. -/
theorem c4_idempotence_amended (cfg : Config) (st : StateA) (rows : List RowA) :
    loadA cfg st rows = combineA st (loadA cfg initA rows) ∧
      loadA cfg (loadA cfg initA rows) rows =
        combineA (loadA cfg initA rows) (loadA cfg initA rows) := by
  have key : ∀ s : StateA, loadA cfg s rows = combineA s (loadA cfg initA rows) := by
    intro s
    have h := loadA_combineA cfg rows s initA
    rwa [combineA_initA_right] at h
  exact ⟨key st, key (loadA cfg initA rows)⟩

/-- C5 counterexample: the source's header test for the DKB format checks
only the two substrings "Zahlungsempfänger*in" and "Betrag (€)"; a line
lacking "Buchungsdatum" is accepted, contradicting the claimed joint
three-substring requirement. -/
theorem c5_header_locator_counterexample :
    locateHeader ["Zahlungsempfänger*in;Betrag (€)"] = some 0 ∧
      headerLineClaimDKB "Zahlungsempfänger*in;Betrag (€)" = false := by
  decide

/-- C5 amended: the Header Locator returns the index of the first line
satisfying the source's requirement — for the DKB variant the pair
containing "Zahlungsempfänger*in" and "Betrag (€)" (not three substrings);
on a file with 5 non-matching preamble lines followed by a valid header it
returns index 5; and when no line matches it fails with the
header-not-found error, committing no partial result. -/
theorem c5_header_locator_amended (cfg : Config) (rows : List RowB)
    (lines ls : List String) (i : Nat)
    (h : locateHeader lines = some i) (hnone : locateHeader ls = none) :
    i < lines.length ∧ headerLine (isDKB lines) (lines.getD i "") = true ∧
      (∀ j, j < i → headerLine (isDKB lines) (lines.getD j "") = false) ∧
      loadAndCategorizeB cfg ls rows = Except.error "Kein gültiger Header gefunden" ∧
      locateHeader dkbExampleLines = some 5 := by
  obtain ⟨h1, h2, h3⟩ := findIdxOpt_some_spec _ "" lines i h
  refine ⟨h1, h2, h3, ?_, ?_⟩
  · simp [loadAndCategorizeB, hnone]
  · decide

/-- Witness for C5's amended statement on the concrete preamble example. -/
theorem c5_header_locator_amended_witness :
    5 < dkbExampleLines.length ∧
      headerLine (isDKB dkbExampleLines) (dkbExampleLines.getD 5 "") = true ∧
      (∀ j, j < 5 → headerLine (isDKB dkbExampleLines) (dkbExampleLines.getD j "") = false) ∧
      loadAndCategorizeB cfgSample ["foo"] [] =
        Except.error "Kein gültiger Header gefunden" ∧
      locateHeader dkbExampleLines = some 5 :=
  c5_header_locator_amended cfgSample [] dkbExampleLines ["foo"] 5 (by decide) (by decide)

/-- C6: the Currency Parser maps the four valid German-locale amount
strings to exactly the claimed rational values. -/
theorem c6_currency_examples :
    parseEuro (some "-12,34 €") = -12.34 ∧ parseEuro (some "1.234,56") = 1234.56 ∧
      parseEuro (some "344") = 344 ∧ parseEuro (some "-0,50") = -0.5 := by
  refine ⟨?_, ?_, by decide, ?_⟩
  · simp only [parseEuro]
    rw [show cleanEuro "-12,34 €".data = "-12.34".data from by decide]
    simp +decide [parseJsFloat, parseUnsigned, takeDigits, digitsToNat]
    norm_num
  · simp only [parseEuro]
    rw [show cleanEuro "1.234,56".data = "1234.56".data from by decide]
    simp +decide [parseJsFloat, parseUnsigned, takeDigits, digitsToNat]
    norm_num
  · simp only [parseEuro]
    rw [show cleanEuro "-0,50".data = "-0.50".data from by decide]
    simp +decide [parseJsFloat, parseUnsigned, takeDigits, digitsToNat]
    norm_num

/-- C7: the Currency Parser is total and silently falls back to 0: absent
input, the empty string, and any string whose cleaned form fails to parse
(such as "abc") all yield exactly 0. -/
theorem c7_currency_fallback (s : String)
    (h : parseJsFloat (cleanEuro s.data) = none) :
    parseEuro (some s) = 0 ∧ parseEuro none = 0 ∧ parseEuro (some "") = 0 ∧
      parseEuro (some "abc") = 0 := by
  refine ⟨?_, rfl, by decide, by decide⟩
  simp [parseEuro, h]

/-- Witness for C7 at the concrete malformed string "abc". -/
theorem c7_currency_fallback_witness :
    parseEuro (some "abc") = 0 ∧ parseEuro none = 0 ∧ parseEuro (some "") = 0 ∧
      parseEuro (some "abc") = 0 :=
  c7_currency_fallback "abc" (by decide)

/-- C8: for an admissible, non-excluded expense row the categories are
tested in declaration order — groceries, then fixedCosts — and the first
hit wins even when the later matcher would also match (it is unconstrained
here); when neither matches the row goes to misc, which has no matcher of
its own (its keyword list is empty in the source and is never consulted).
Stated for the xlsx per-bucket step and the CSV row step. -/
theorem c8_first_match_wins (cfg : Config) (d r u a : String) (p : ℚ) (b : Bucket)
    (st : StateA) (row : RowA)
    (hnex : cfg.excludeMatch r = false)
    (hr : falsy row.recipient = false) (hra : falsy row.amountStr = false)
    (hnex2 : cfg.excludeMatch (getStr row.recipient) = false)
    (hneg2 : parseEuro row.amountStr < 0) :
    (cfg.groceryMatch r = true →
        categorizeRow cfg d r u a p b =
          { b with groceries := (pushAgg b.groceries ⟨d, r, a, p⟩ p) }) ∧
      (cfg.groceryMatch r = false → cfg.fixedMatch r = true →
        categorizeRow cfg d r u a p b =
          { b with fixedCosts := (pushAgg b.fixedCosts ⟨d, r, a, p⟩ p) }) ∧
      (cfg.groceryMatch r = false → cfg.fixedMatch r = false →
        categorizeRow cfg d r u a p b =
          { b with misc := (pushAgg b.misc ⟨d, r, a, p⟩ p) }) ∧
      (cfg.groceryMatch (getStr row.recipient) = true →
        processRowA cfg st row =
          { st with groceries := (pushAgg st.groceries
              ⟨getStr row.recipient, getStr row.amountStr, parseEuro row.amountStr⟩
              (parseEuro row.amountStr)) }) ∧
      (cfg.groceryMatch (getStr row.recipient) = false →
          cfg.fixedMatch (getStr row.recipient) = true →
        processRowA cfg st row =
          { st with fixedCosts := (pushAgg st.fixedCosts
              ⟨getStr row.recipient, getStr row.amountStr, parseEuro row.amountStr⟩
              (parseEuro row.amountStr)) }) ∧
      (cfg.groceryMatch (getStr row.recipient) = false →
          cfg.fixedMatch (getStr row.recipient) = false →
        processRowA cfg st row =
          { st with misc := (pushAgg st.misc
              ⟨getStr row.recipient, getStr row.amountStr, parseEuro row.amountStr⟩
              (parseEuro row.amountStr)) }) := by
  have hnle : ¬ (0 ≤ parseEuro row.amountStr) := not_le.mpr hneg2
  refine ⟨fun hg => ?_, fun hg hf => ?_, fun hg hf => ?_,
    fun hg => ?_, fun hg hf => ?_, fun hg hf => ?_⟩ <;>
    simp_all [categorizeRow, processRowA]

/-- Witness for C8: with only the grocery matcher hitting, a REWE row lands
in groceries. -/
theorem c8_first_match_wins_witness :
    categorizeRow cfgSample "05.05.2025" "REWE Markt" "-" "-3" (-3) emptyBucket =
      { emptyBucket with groceries :=
          (pushAgg emptyBucket.groceries ⟨"05.05.2025", "REWE Markt", "-3", -3⟩ (-3)) } :=
  (c8_first_match_wins cfgSample "05.05.2025" "REWE Markt" "-" "-3" (-3) emptyBucket
    initA ⟨some "REWE Markt", some "-3", none⟩
    (by decide) (by decide) (by decide) (by decide) (by decide)).1 (by decide)

/-- C9: merging two buckets for the same period key concatenates each
category's match list (the accumulated bucket's entries first) and the
exclusion list, and sums the totals; the merged bucket replaces the
existing entry under the same key. -/
theorem c9_merge_month_buckets (acc : BState) (month : String) (a b : Bucket)
    (h : alLookup acc month = some a) :
    alLookup (insertMonth acc month b) month = some (mergeBucket a b) ∧
      (mergeBucket a b).groceries.matchList = a.groceries.matchList ++ b.groceries.matchList ∧
      (mergeBucket a b).groceries.total = a.groceries.total + b.groceries.total ∧
      (mergeBucket a b).fixedCosts.matchList = a.fixedCosts.matchList ++ b.fixedCosts.matchList ∧
      (mergeBucket a b).fixedCosts.total = a.fixedCosts.total + b.fixedCosts.total ∧
      (mergeBucket a b).misc.matchList = a.misc.matchList ++ b.misc.matchList ∧
      (mergeBucket a b).misc.total = a.misc.total + b.misc.total ∧
      (mergeBucket a b).excluded = a.excluded ++ b.excluded := by
  refine ⟨?_, rfl, rfl, rfl, rfl, rfl, rfl, rfl⟩
  unfold insertMonth
  rw [if_pos (by simp [h])]
  exact alLookup_alUpdate_self _ acc month a h

/-- Witness for C9: buckets with groceries totals −10 and −5 merge to −15
with file A's match preceding file B's. -/
theorem c9_merge_month_buckets_witness :
    (alLookup (insertMonth [("2025-05", bucketA10)] "2025-05" bucketB5) "2025-05" =
        some (mergeBucket bucketA10 bucketB5) ∧
      (mergeBucket bucketA10 bucketB5).groceries.matchList =
        bucketA10.groceries.matchList ++ bucketB5.groceries.matchList ∧
      (mergeBucket bucketA10 bucketB5).groceries.total =
        bucketA10.groceries.total + bucketB5.groceries.total ∧
      (mergeBucket bucketA10 bucketB5).fixedCosts.matchList =
        bucketA10.fixedCosts.matchList ++ bucketB5.fixedCosts.matchList ∧
      (mergeBucket bucketA10 bucketB5).fixedCosts.total =
        bucketA10.fixedCosts.total + bucketB5.fixedCosts.total ∧
      (mergeBucket bucketA10 bucketB5).misc.matchList =
        bucketA10.misc.matchList ++ bucketB5.misc.matchList ∧
      (mergeBucket bucketA10 bucketB5).misc.total =
        bucketA10.misc.total + bucketB5.misc.total ∧
      (mergeBucket bucketA10 bucketB5).excluded =
        bucketA10.excluded ++ bucketB5.excluded) ∧
      (mergeBucket bucketA10 bucketB5).groceries.total = -15 ∧
      (mergeBucket bucketA10 bucketB5).groceries.matchList = [entryNeg10, entryNeg5] :=
  ⟨c9_merge_month_buckets [("2025-05", bucketA10)] "2025-05" bucketA10 bucketB5 (by decide),
    by norm_num [mergeBucket, bucketA10, bucketB5, emptyBucket],
    by simp [mergeBucket, bucketA10, bucketB5, emptyBucket]⟩

/-- C10: in the per-row-period (xlsx) variant a row missing its booking
date — or its amount or recipient — is skipped entirely: the state is
unchanged, so it reaches no match list, no exclusion list and no total. -/
theorem c10_inadmissible_row_skipped (cfg : Config) (st : BState) (row : RowB)
    (h : falsy row.amountStr = true ∨ falsy row.bookingDate = true ∨
      falsy row.recipient = true) :
    processRowB cfg st row = st := by
  have hc : (falsy row.amountStr || falsy row.bookingDate || falsy row.recipient) = true := by
    rcases h with h | h | h <;> simp [h]
  simp [processRowB, hc]

/-- Witness for C10: a row with recipient and amount present but no
booking date leaves the state unchanged. -/
theorem c10_inadmissible_row_skipped_witness :
    processRowB cfgSample [] ⟨some "-3", none, some "REWE Markt", none⟩ = [] :=
  c10_inadmissible_row_skipped cfgSample [] ⟨some "-3", none, some "REWE Markt", none⟩
    (Or.inr (Or.inl rfl))

end SpendReport
